import Mathlib

/-!
# Verification of `pyrtools/convolutions.py`

A shallow embedding of the Python wrapper module `convolutions.py` (functions
`corrDn`, `upConv`, `pointOp`) together with spec-modelled definitions of the
compiled C kernels (`internal_reduce`, `internal_expand`, `internal_wrap_*`,
`internal_pointop`) that the wrapper calls through `ctypes` and that are not
part of the repository's Python sources.

IEEE-754 double values are modelled as exact rationals (`ℚ`); numpy arrays are
modelled by `Mat` (a dimension list plus row-major flat data), and array
identity / aliasing is modelled by an explicit store of numbered buffers.
-/

namespace Pyrtools

/-- Model of a numpy `ndarray` of doubles: a shape (`dims`, as numpy's
`a.shape` tuple) and the row-major flat buffer contents. -/
structure Mat where
  dims : List ℕ
  data : List ℚ
deriving DecidableEq, Repr

/-- Field access `a.shape[0]` of a numpy array. -/
def Mat.shape0 (m : Mat) : ℕ := m.dims.getD 0 0

/-- Field access `a.shape[1]` of a numpy array. -/
def Mat.shape1 (m : Mat) : ℕ := m.dims.getD 1 0

/-- Allocation `np.zeros((a, b))`. -/
def zerosMat (a b : ℕ) : Mat := ⟨[a, b], List.replicate (a * b) 0⟩

/-- The boundary-handling mode strings accepted by the module
(`corrDn`/`upConv` docstrings). -/
inductive Mode where
  | circular
  | reflect1
  | reflect2
  | repeatEdge
  | zero
  | extend
  | dontCompute
deriving DecidableEq, Repr

/-- Reshape `np.reshape(filt, (1, len(filt)))` applied when `len(filt.shape) == 1`,
as done at the top of both `corrDn` and `upConv`
(`convolutions.py` lines 50-51 and 123-124). -/
def reshapeIf1D (m : Mat) : Mat :=
  if m.dims.length = 1 then ⟨[1, m.data.length], m.data⟩ else m

/-- The even-sized-filter guard and padding of `upConv`
(`convolutions.py` lines 126-135), applied to the already-reshaped filter.

The Python condition is literally
`(edges != "reflect1" or edges != "extend" or edges != "repeat") and
 (filt.shape[0] % 2 == 0 or filt.shape[1] % 2 == 0)`;
the first conjunct is an `or`-chain of inequalities against three distinct
strings, faithfully transcribed here.  When the guard fires: a column filter
(`filt.shape[1] == 1`) gets `np.append(filt, 0.0)` then
`np.reshape(filt, (len(filt), 1))`; a row filter (`filt.shape[0] == 1`) gets
`np.append(filt, 0.0)` then `np.reshape(filt, (1, len(filt)))`; otherwise
`Exception('Even sized 2D filters not yet supported by upConv.')` is raised. -/
def evenFilterStep (edges : Mode) (filt : Mat) : Except String Mat :=
  if (edges ≠ Mode.reflect1 ∨ edges ≠ Mode.extend ∨ edges ≠ Mode.repeatEdge) ∧
      (filt.shape0 % 2 = 0 ∨ filt.shape1 % 2 = 0) then
    if filt.shape1 = 1 then
      Except.ok ⟨[filt.data.length + 1, 1], filt.data ++ [0]⟩
    else if filt.shape0 = 1 then
      Except.ok ⟨[1, filt.data.length + 1], filt.data ++ [0]⟩
    else
      Except.error "Even sized 2D filters not yet supported by upConv."
  else
    Except.ok filt

/-- The complete filter pre-processing of `upConv`
(`convolutions.py` lines 123-135): 1D reshape followed by the even-filter
guard. -/
def upConvFilt (edges : Mode) (filt : Mat) : Except String Mat :=
  evenFilterStep edges (reshapeIf1D filt)

/-! ## Spec-modelled convolution kernels

The compiled C kernels (`internal_reduce`, `internal_wrap_reduce`,
`internal_expand`, `internal_wrap_expand`) are loaded from `wrapConv*.so` and
are not part of the repository's Python sources, so they are modelled here
from the specification (§4.1-§4.3): a per-axis boundary-index mapper, a
gather-style correlation/downsampling kernel and a scatter-style
upsampling/convolution kernel.  Grids are functions `ℕ → ℕ → ℚ` with explicit
extents. -/

/-- Modelled from the spec (§4.1, `reflect1`): mirror an out-of-range index
about the edge pixels without duplicating them (`-1 → 0`, `-2 → 1`, …,
`extent → extent-1`, …); period `2·extent - 2`. -/
def refl1 (n : ℕ) (i : ℤ) : ℤ :=
  if n ≤ 1 then 0
  else if i % (2 * (n : ℤ) - 2) < (n : ℤ) then i % (2 * (n : ℤ) - 2)
  else 2 * (n : ℤ) - 2 - i % (2 * (n : ℤ) - 2)

/-- Modelled from the spec (§4.1, `reflect2`): mirror while duplicating the
edge pixel; period `2·extent`, edge value repeated once per period. -/
def refl2 (n : ℕ) (i : ℤ) : ℤ :=
  if n = 0 then 0
  else if i % (2 * (n : ℤ)) < (n : ℤ) then i % (2 * (n : ℤ))
  else 2 * (n : ℤ) - 1 - i % (2 * (n : ℤ))

/-- Modelled from the spec (§4.1, `repeat`): clamp to `0` or `extent - 1`. -/
def clampIdx (n : ℕ) (i : ℤ) : ℤ := max 0 (min i ((n : ℤ) - 1))

/-- Modelled from the spec (§4.1): the BoundaryIndexMapper.  Resolves an index
against an extent under a boundary mode, returning `none` for a
zero-contribution tap (mode `zero` out of range) or `some (index, sign)` with
the resolved in-range index and the sign multiplier (`-1` only for mode
`extend` out of range).  Mode `dont-compute`'s whole-sample skip is handled in
the kernels themselves; inside the in-range region it resolves like the
identity. -/
def resolve (mode : Mode) (n : ℕ) (i : ℤ) : Option (ℤ × ℚ) :=
  match mode with
  | Mode.circular => some (i % (n : ℤ), 1)
  | Mode.reflect1 => some (refl1 n i, 1)
  | Mode.reflect2 => some (refl2 n i, 1)
  | Mode.repeatEdge => some (clampIdx n i, 1)
  | Mode.zero => if 0 ≤ i ∧ i < (n : ℤ) then some (i, 1) else none
  | Mode.extend =>
      some (refl1 n i, if 0 ≤ i ∧ i < (n : ℤ) then 1 else -1)
  | Mode.dontCompute => if 0 ≤ i ∧ i < (n : ℤ) then some (i, 1) else none

/-- Modelled from the spec (§4.1/§4.2, read side): the value a single-axis
gather sees at (possibly out-of-range) index `j` of a signal `g` of extent
`n`: the signed resolved sample, or `0` for a zero-contribution tap. -/
def gatherAxis (mode : Mode) (n : ℕ) (g : ℕ → ℚ) (j : ℤ) : ℚ :=
  match resolve mode n j with
  | some (r, s) => s * g r.toNat
  | none => 0

/-- Modelled from the spec (§4.1, "Applied independently per axis"): the value
a 2D gather sees at coordinates `(i, j)` of an `H×W` image `x`; both axes are
resolved independently and the sign multipliers combine multiplicatively. -/
def gather2 (mode : Mode) (H W : ℕ) (x : ℕ → ℕ → ℚ) (i j : ℤ) : ℚ :=
  gatherAxis mode H (fun a => gatherAxis mode W (x a) j) i

/-- Modelled from the spec (§4.3, write side): the weight with which a write
aimed at (possibly out-of-range) index `j` lands on in-range cell `a` of an
axis of extent `n`: the sign multiplier if `j` resolves to `a`, else `0`
(a dropped write for mode `zero` out of range). -/
def wt (mode : Mode) (n : ℕ) (j : ℤ) (a : ℕ) : ℚ :=
  match resolve mode n j with
  | some (r, s) => if r = (a : ℤ) then s else 0
  | none => 0

/-- Whether every filter tap centred at `o` lands inside `[0, extent)`
(used only by mode `dont-compute`). -/
def tapsInAxis (n fsz : ℕ) (o : ℤ) : Bool :=
  (List.range fsz).all fun t =>
    decide (0 ≤ o + (t : ℤ) - ((fsz / 2 : ℕ) : ℤ) ∧
            o + (t : ℤ) - ((fsz / 2 : ℕ) : ℤ) < (n : ℤ))

/-- Modelled from the spec (§4.2): one output sample of `corrDn`'s kernel.
The output coordinate of rank `(ky, kx)` in the window is
`(startY + stepY·ky, startX + stepX·kx)`; the sample is the filter-weighted
sum of the boundary-resolved image neighbourhood, with the filter origin at
`(⌊Fh/2⌋, ⌊Fw/2⌋)`; under `dont-compute` the whole sample is `0` whenever any
tap is out of range. -/
def corrDnK (mode : Mode) (H W Fh Fw : ℕ) (x f : ℕ → ℕ → ℚ)
    (startY startX stepY stepX ky kx : ℕ) : ℚ :=
  if mode = Mode.dontCompute ∧
      ¬(tapsInAxis H Fh ((startY : ℤ) + (stepY : ℤ) * (ky : ℤ)) ∧
        tapsInAxis W Fw ((startX : ℤ) + (stepX : ℤ) * (kx : ℤ))) then 0
  else
    ∑ fy ∈ Finset.range Fh, ∑ fx ∈ Finset.range Fw,
      f fy fx *
        gather2 mode H W x
          ((startY : ℤ) + (stepY : ℤ) * (ky : ℤ) + (fy : ℤ) - ((Fh / 2 : ℕ) : ℤ))
          ((startX : ℤ) + (stepX : ℤ) * (kx : ℤ) + (fx : ℤ) - ((Fw / 2 : ℕ) : ℤ))

/-- Modelled from the spec (§4.3): one output cell `(a, b)` of `upConv`'s
kernel on an output grid of extents `(S0, S1)`.  Every input sample
`(ky, kx)` of the `Ih×Iw` input `y` scatter-adds `y[ky,kx]·f[fy,fx]` through
the boundary mapper at target `(stepY·ky + fy - ⌊Fh/2⌋, stepX·kx + fx -
⌊Fw/2⌋)`; under `dont-compute` an input sample whose targets are not all in
range contributes nothing. -/
def upConvK (mode : Mode) (S0 S1 Ih Iw Fh Fw : ℕ) (y f : ℕ → ℕ → ℚ)
    (stepY stepX a b : ℕ) : ℚ :=
  ∑ ky ∈ Finset.range Ih, ∑ kx ∈ Finset.range Iw,
    (if mode = Mode.dontCompute ∧
        ¬(tapsInAxis S0 Fh ((stepY : ℤ) * (ky : ℤ)) ∧
          tapsInAxis S1 Fw ((stepX : ℤ) * (kx : ℤ))) then 0
     else
       ∑ fy ∈ Finset.range Fh, ∑ fx ∈ Finset.range Fw,
         y ky kx * f fy fx *
           wt mode S0 ((stepY : ℤ) * (ky : ℤ) + (fy : ℤ) - ((Fh / 2 : ℕ) : ℤ)) a *
           wt mode S1 ((stepX : ℤ) * (kx : ℤ) + (fx : ℤ) - ((Fw / 2 : ℕ) : ℤ)) b)

/-- Inner product of two `H×W` grids. -/
def dot2 (H W : ℕ) (u v : ℕ → ℕ → ℚ) : ℚ :=
  ∑ i ∈ Finset.range H, ∑ j ∈ Finset.range W, u i j * v i j

/-! ### Adjointness of the gather and scatter kernels -/

lemma resolve_in_range (mode : Mode)
    (hm : mode = Mode.reflect1 ∨ mode = Mode.zero ∨ mode = Mode.circular)
    (n : ℕ) (hn : 1 ≤ n) (j r : ℤ) (s : ℚ)
    (h : resolve mode n j = some (r, s)) : 0 ≤ r ∧ r < (n : ℤ) := by
  rcases hm with rfl | rfl | rfl
  · simp only [resolve, Option.some.injEq, Prod.mk.injEq] at h
    obtain ⟨hr, -⟩ := h
    subst hr
    unfold refl1
    split_ifs with h1 h2
    · omega
    · constructor
      · exact Int.emod_nonneg j (by omega)
      · exact h2
    · have hpos : (0 : ℤ) < 2 * (n : ℤ) - 2 := by omega
      have h0 : 0 ≤ j % (2 * (n : ℤ) - 2) := Int.emod_nonneg j (by omega)
      have hlt : j % (2 * (n : ℤ) - 2) < 2 * (n : ℤ) - 2 :=
        Int.emod_lt_of_pos j hpos
      omega
  · simp only [resolve] at h
    split_ifs at h with hc
    simp only [Option.some.injEq, Prod.mk.injEq] at h
    obtain ⟨hr, -⟩ := h
    omega
  · simp only [resolve, Option.some.injEq, Prod.mk.injEq] at h
    obtain ⟨hr, -⟩ := h
    subst hr
    constructor
    · exact Int.emod_nonneg j (by omega)
    · exact Int.emod_lt_of_pos j (by omega)

lemma sum_g_mul_wt (mode : Mode)
    (hm : mode = Mode.reflect1 ∨ mode = Mode.zero ∨ mode = Mode.circular)
    (n : ℕ) (hn : 1 ≤ n) (g : ℕ → ℚ) (j : ℤ) :
    ∑ a ∈ Finset.range n, g a * wt mode n j a = gatherAxis mode n g j := by
  rcases hres : resolve mode n j with - | ⟨r, s⟩
  · simp [wt, gatherAxis, hres]
  · obtain ⟨hr0, hrn⟩ := resolve_in_range mode hm n hn j r s hres
    simp only [wt, gatherAxis, hres]
    rw [Finset.sum_eq_single_of_mem r.toNat (Finset.mem_range.mpr (by omega))
      (fun b _ hb => by rw [if_neg (by omega), mul_zero])]
    rw [if_pos (by omega), mul_comm]

lemma sum2_wt (mode : Mode)
    (hm : mode = Mode.reflect1 ∨ mode = Mode.zero ∨ mode = Mode.circular)
    (H W : ℕ) (hH : 1 ≤ H) (hW : 1 ≤ W) (x : ℕ → ℕ → ℚ) (i j : ℤ) :
    ∑ a ∈ Finset.range H, ∑ b ∈ Finset.range W,
        x a b * wt mode H i a * wt mode W j b
      = gather2 mode H W x i j := by
  have hinner : ∀ a, ∑ b ∈ Finset.range W, x a b * wt mode H i a * wt mode W j b
      = gatherAxis mode W (x a) j * wt mode H i a := by
    intro a
    rw [← sum_g_mul_wt mode hm W hW (x a) j, Finset.sum_mul]
    exact Finset.sum_congr rfl fun b _ => by ring
  calc ∑ a ∈ Finset.range H, ∑ b ∈ Finset.range W,
          x a b * wt mode H i a * wt mode W j b
      = ∑ a ∈ Finset.range H, gatherAxis mode W (x a) j * wt mode H i a :=
        Finset.sum_congr rfl fun a _ => hinner a
    _ = gatherAxis mode H (fun a => gatherAxis mode W (x a) j) i :=
        sum_g_mul_wt mode hm H hH _ i
    _ = gather2 mode H W x i j := rfl

lemma rot3 (s t u : Finset ℕ) (F : ℕ → ℕ → ℕ → ℚ) :
    ∑ a ∈ s, ∑ b ∈ t, ∑ c ∈ u, F a b c
      = ∑ b ∈ t, ∑ c ∈ u, ∑ a ∈ s, F a b c := by
  rw [Finset.sum_comm]
  exact Finset.sum_congr rfl fun b _ => Finset.sum_comm

lemma swap6 (s1 s2 s3 s4 s5 s6 : Finset ℕ)
    (F : ℕ → ℕ → ℕ → ℕ → ℕ → ℕ → ℚ) :
    (∑ i1 ∈ s1, ∑ i2 ∈ s2, ∑ i3 ∈ s3, ∑ i4 ∈ s4, ∑ i5 ∈ s5, ∑ i6 ∈ s6,
        F i1 i2 i3 i4 i5 i6)
      = ∑ i5 ∈ s5, ∑ i6 ∈ s6, ∑ i1 ∈ s1, ∑ i2 ∈ s2, ∑ i3 ∈ s3, ∑ i4 ∈ s4,
        F i1 i2 i3 i4 i5 i6 := by
  refine (Finset.sum_congr rfl fun i1 _ => Finset.sum_congr rfl fun i2 _ =>
    Finset.sum_congr rfl fun i3 _ => rot3 s4 s5 s6 fun i4 i5 i6 =>
      F i1 i2 i3 i4 i5 i6).trans ?_
  refine (Finset.sum_congr rfl fun i1 _ => Finset.sum_congr rfl fun i2 _ =>
    rot3 s3 s5 s6 fun i3 i5 i6 =>
      ∑ i4 ∈ s4, F i1 i2 i3 i4 i5 i6).trans ?_
  refine (Finset.sum_congr rfl fun i1 _ =>
    rot3 s2 s5 s6 fun i2 i5 i6 =>
      ∑ i3 ∈ s3, ∑ i4 ∈ s4, F i1 i2 i3 i4 i5 i6).trans ?_
  exact rot3 s1 s5 s6 fun i1 i5 i6 =>
    ∑ i2 ∈ s2, ∑ i3 ∈ s3, ∑ i4 ∈ s4, F i1 i2 i3 i4 i5 i6

/-! ## Buffer-store model of the Python wrapper functions

`corrDn`, `upConv` and `pointOp` hand raw `ctypes` pointers of numpy buffers
to the C kernels.  To reason about aliasing (which caller array can be
mutated, and whether the returned array is a fresh object), buffers are
numbered and a call is modelled as a function from a store (`ℕ → Mat`) to a
store plus the returned buffer's number and caller-visible value.  The C
kernels themselves are opaque here: each wrapper model takes an arbitrary
`kernel` function producing the data written through the result pointer;
pointer writes can change a buffer's contents but never a numpy array's
shape, which `writeThrough` records. -/

/-- A store of numbered array buffers. -/
def Store := ℕ → Mat

/-- Overwrite buffer `i` of the store. -/
def setBuf (σ : Store) (i : ℕ) (m : Mat) : Store := Function.update σ i m

lemma setBuf_ne (σ : Store) (i j : ℕ) (m : Mat) (h : j ≠ i) :
    setBuf σ i m j = σ j := by
  unfold setBuf
  exact Function.update_noteq h m σ

/-- The effect of the C kernel writing through a buffer's data pointer: the
contents change, the shape cannot. -/
def writeThrough (buf : Mat) (d : List ℚ) : Mat := ⟨buf.dims, d⟩

/-- Transpose `result.T` (numpy) of a 2D array. -/
def transposeMat (m : Mat) : Mat :=
  ⟨[m.shape1, m.shape0],
   (List.range (m.shape1 * m.shape0)).map fun k =>
     m.data.getD ((k % m.shape0) * m.shape1 + k / m.shape0) 0⟩

/-- Value of `len(list(range(a, b, s)))` for nonnegative Python arguments. -/
def rangeLen (a b s : ℕ) : ℕ := if s = 0 then 0 else (b - a + s - 1) / s

/-- The staging (pre-kernel) control flow of `corrDn`
(`convolutions.py` lines 47-61): `corrDn` copies its arguments, reshapes a 1D
filter to `1×Fw`, and performs NO validation of any kind — no shape check, no
orientation check and no mode check appear anywhere in the function.  The
`Except` layer records that no exception can be raised before the kernel call. -/
def corrDnStage (image filt : Mat) : Except String (Mat × Mat) :=
  Except.ok (image, reshapeIf1D filt)

/-- The observable effects of a full `corrDn` call
(`convolutions.py` lines 47-83).  Arguments are buffer numbers into the store
`σ`; `n` is the next free buffer number (every live buffer is `< n`).  The
function copies `image` (fresh buffer `n`) and `filt` (fresh buffer `n+1`),
defaults `stop` to the image shape, sizes a fresh zero result of
`len(range(start, stop, step))` per axis when no result buffer is supplied, or
else copies the supplied buffer (fresh buffer `n+2` either way), lets the
kernel write through the copy's pointer, and returns that buffer. -/
def corrDnEffects (σ : Store) (n imgId filtId : ℕ) (resArg : Option ℕ)
    (startY startX stepY stepX : ℕ) (stopArg : Option (ℕ × ℕ))
    (kernel : Mat → Mat → Mat → List ℚ) : Store × (ℕ × Mat) :=
  let image := σ imgId
  let filt0 := σ filtId
  let filt := reshapeIf1D filt0
  let stop := match stopArg with
    | none => (image.shape0, image.shape1)
    | some st => st
  let res0 := match resArg with
    | none => zerosMat (rangeLen startY stop.1 stepY) (rangeLen startX stop.2 stepX)
    | some r => σ r
  let out := writeThrough res0 (kernel image filt res0)
  (setBuf (setBuf (setBuf σ n image) (n + 1) filt0) (n + 2) out, (n + 2, out))

/-- The output-extent pair `stop` computed by `upConv`
(`convolutions.py` lines 137-141): `step * image extent` when neither `stop`
nor `result` is given, the result buffer's shape when only `result` is given,
and the caller's `stop` otherwise. -/
def upConvStopOf (image : Mat) (res : Option Mat) (stepY stepX : ℕ)
    (stopArg : Option (ℕ × ℕ)) : ℕ × ℕ :=
  match stopArg, res with
  | none, none => (image.shape0 * stepY, image.shape1 * stepX)
  | none, some r => (r.shape0, r.shape1)
  | some st, _ => st

/-- The observable effects of a full `upConv` call
(`convolutions.py` lines 120-168).  The function copies `image` (fresh buffer
`n`) and `filt` (fresh buffer `n+1`), runs the even-filter guard (which can
raise, in which case nothing is returned), computes `stop`, allocates
`np.zeros((stop[1], stop[0]))` or copies the supplied result buffer (fresh
buffer `n+2` either way), lets the kernel write through that copy's pointer,
and returns it — transposed (`result.T`) on the `circular` fast path,
`np.reshape(result, stop)` otherwise. -/
def upConvEffects (σ : Store) (n imgId filtId : ℕ) (resArg : Option ℕ)
    (edges : Mode) (stepY stepX : ℕ) (stopArg : Option (ℕ × ℕ))
    (kernel : Mat → Mat → Mat → List ℚ) : Store × Option (ℕ × Mat) :=
  let image := σ imgId
  let filt0 := σ filtId
  match upConvFilt edges filt0 with
  | Except.error _ => (setBuf (setBuf σ n image) (n + 1) filt0, none)
  | Except.ok filt =>
    let stop := upConvStopOf image (resArg.map σ) stepY stepX stopArg
    let res0 := match resArg with
      | none => zerosMat stop.2 stop.1
      | some r => σ r
    let out := writeThrough res0 (kernel image filt res0)
    let ret := if edges = Mode.circular then transposeMat out
      else (⟨[stop.1, stop.2], out.data⟩ : Mat)
    (setBuf (setBuf (setBuf σ n image) (n + 1) filt0) (n + 2) out,
     some (n + 2, ret))

/-- The table length `pointOp` reports to the C kernel
(`convolutions.py` line 189): literally `lut.shape[0]`. -/
def reportedLutLen (lut : Mat) : ℕ := lut.dims.getD 0 0

/-- The table samples a bounds-respecting kernel can access through the
pointer-plus-length pair `pointOp` passes it: the first `lut.shape[0]`
entries of the flat buffer. -/
def visibleSamples (lut : Mat) : List ℚ := lut.data.take (reportedLutLen lut)

/-- The observable effects of a full `pointOp` call
(`convolutions.py` lines 183-193): a fresh zero result of the image's 2D
shape (buffer `n`), a kernel call receiving the image data, the element count
`image.shape[0]*image.shape[1]` and the table samples visible under the
reported length, then `return np.array(result)` — another fresh copy (buffer
`n+1`), which is what the caller receives. -/
def pointOpEffects (σ : Store) (n imgId lutId : ℕ)
    (kernel : List ℚ → ℕ → List ℚ → List ℚ) : Store × (ℕ × Mat) :=
  let image := σ imgId
  let lut := σ lutId
  let res0 := zerosMat image.shape0 image.shape1
  let out := writeThrough res0
    (kernel image.data (image.shape0 * image.shape1) (visibleSamples lut))
  (setBuf (setBuf σ n out) (n + 1) out, (n + 1, out))

/-! ## Spec-modelled kernel-side validation

The C kernels' argument validation is not part of the Python sources either;
it is modelled from the specification's failure conditions. -/

/-- The error kinds of the specification (§7). -/
inductive KernelError where
  | shapeMismatch
  | invalidMode
  | unsupportedFilter
  | invalidTable
  | invalidWindow
deriving DecidableEq, Repr

/-- Modelled from the spec (§4.2, failure conditions of `corrDn`, performed by
the absent C kernel): `Fh > H or Fw > W` reports a size-mismatch error before
any computation, for every mode; otherwise the correlation kernel runs. -/
def corrDnChecked (mode : Mode) (H W Fh Fw : ℕ) (x f : ℕ → ℕ → ℚ)
    (startY startX stepY stepX : ℕ) : Except KernelError (ℕ → ℕ → ℚ) :=
  if Fh > H ∨ Fw > W then Except.error KernelError.shapeMismatch
  else Except.ok fun ky kx => corrDnK mode H W Fh Fw x f startY startX stepY stepX ky kx

/-- Modelled from the spec (§4.4, validation of `pointOp`, performed by the
absent C kernel `internal_pointop`): the table must contain at least 2 samples
— the kernel sees the length `pointOp` reports, `lut.shape[0]` — and the
increment must be nonzero; violating either is a reported error. -/
def pointOpChecked (lut : Mat) (increment : ℚ) : Except KernelError Unit :=
  if reportedLutLen lut < 2 ∨ increment = 0 then
    Except.error KernelError.invalidTable
  else Except.ok ()

/-- C1: Adjoint duality.  For every image `x`, filter `f`, boundary mode among
`reflect1`, `zero` and `circular`, and output grid `y` of the shape produced
by `corrDn(x, f, mode)` with the default window (`start=(0,0)`, `step=(1,1)`,
`stop=` image extent, hence an `H×W` output), the inner product
`dot(corrDn(x, f, mode), y)` equals `dot(x, upConv(y, f, mode))`, where
`upConv` is taken with its default window (`step=(1,1)`, output extent
`step * image extent = H×W`).  Arithmetic is exact (`ℚ`), so the equality
holds outright, hence within any floating-point tolerance. -/
theorem corrDn_upConv_adjoint
    (mode : Mode) (H W Fh Fw : ℕ) (x f y : ℕ → ℕ → ℚ)
    (hH : 1 ≤ H) (hW : 1 ≤ W)
    (hm : mode = Mode.reflect1 ∨ mode = Mode.zero ∨ mode = Mode.circular) :
    dot2 H W (fun ky kx => corrDnK mode H W Fh Fw x f 0 0 1 1 ky kx) y
      = dot2 H W x (fun a b => upConvK mode H W H W Fh Fw y f 1 1 a b) := by
  have hnd : mode ≠ Mode.dontCompute := by
    rcases hm with rfl | rfl | rfl <;> simp
  trans (∑ ky ∈ Finset.range H, ∑ kx ∈ Finset.range W,
      ∑ fy ∈ Finset.range Fh, ∑ fx ∈ Finset.range Fw,
      ∑ a ∈ Finset.range H, ∑ b ∈ Finset.range W,
        x a b * y ky kx * f fy fx *
          wt mode H ((ky : ℤ) + (fy : ℤ) - ((Fh / 2 : ℕ) : ℤ)) a *
          wt mode W ((kx : ℤ) + (fx : ℤ) - ((Fw / 2 : ℕ) : ℤ)) b)
  · simp only [dot2]
    refine Finset.sum_congr rfl fun ky _ => Finset.sum_congr rfl fun kx _ => ?_
    rw [corrDnK, if_neg (fun hcon => hnd hcon.1)]
    simp only [Nat.cast_zero, Nat.cast_one, zero_add, one_mul]
    rw [Finset.sum_mul]
    refine Finset.sum_congr rfl fun fy _ => ?_
    rw [Finset.sum_mul]
    refine Finset.sum_congr rfl fun fx _ => ?_
    rw [← sum2_wt mode hm H W hH hW x]
    rw [Finset.mul_sum, Finset.sum_mul]
    refine Finset.sum_congr rfl fun a _ => ?_
    rw [Finset.mul_sum, Finset.sum_mul]
    refine Finset.sum_congr rfl fun b _ => ?_
    ring
  · refine (swap6 (Finset.range H) (Finset.range W) (Finset.range Fh)
      (Finset.range Fw) (Finset.range H) (Finset.range W)
      (fun ky kx fy fx a b =>
        x a b * y ky kx * f fy fx *
          wt mode H ((ky : ℤ) + (fy : ℤ) - ((Fh / 2 : ℕ) : ℤ)) a *
          wt mode W ((kx : ℤ) + (fx : ℤ) - ((Fw / 2 : ℕ) : ℤ)) b)).trans ?_
    simp only [dot2]
    refine Finset.sum_congr rfl fun a _ => Finset.sum_congr rfl fun b _ => ?_
    simp only [upConvK, hnd, false_and, if_false, Nat.cast_one, one_mul]
    rw [Finset.mul_sum]
    refine Finset.sum_congr rfl fun ky _ => ?_
    rw [Finset.mul_sum]
    refine Finset.sum_congr rfl fun kx _ => ?_
    rw [Finset.mul_sum]
    refine Finset.sum_congr rfl fun fy _ => ?_
    rw [Finset.mul_sum]
    refine Finset.sum_congr rfl fun fx _ => ?_
    ring

theorem corrDn_upConv_adjoint_witness :
    1 ≤ 1 ∧
      dot2 1 1
          (fun ky kx =>
            corrDnK Mode.zero 1 1 1 1 (fun _ _ => 2) (fun _ _ => 3) 0 0 1 1 ky kx)
          (fun _ _ => 5)
        = dot2 1 1 (fun _ _ => 2)
            (fun a b =>
              upConvK Mode.zero 1 1 1 1 1 1 (fun _ _ => 5) (fun _ _ => 3) 1 1 a b) :=
  ⟨Nat.le_refl 1,
   corrDn_upConv_adjoint Mode.zero 1 1 1 1 (fun _ _ => 2) (fun _ _ => 3)
     (fun _ _ => 5) (Nat.le_refl 1) (Nat.le_refl 1) (Or.inr (Or.inl rfl))⟩

/-- C2: for every boundary mode, `upConv` with a 2×2 filter reports the
"Even sized 2D filters not yet supported by upConv." error, while an
even-sized 1D filter — flat of length 2, row `1×2`, or column `2×1` — is
silently padded with one trailing zero coefficient (a `1×2` becomes `1×3`)
and the call proceeds without error. -/
theorem upConv_even_filter_handling (edges : Mode) (a b c d u v : ℚ) :
    upConvFilt edges ⟨[2, 2], [a, b, c, d]⟩ =
        Except.error "Even sized 2D filters not yet supported by upConv." ∧
      upConvFilt edges ⟨[1, 2], [u, v]⟩ = Except.ok ⟨[1, 3], [u, v, 0]⟩ ∧
      upConvFilt edges ⟨[2], [u, v]⟩ = Except.ok ⟨[1, 3], [u, v, 0]⟩ ∧
      upConvFilt edges ⟨[2, 1], [u, v]⟩ = Except.ok ⟨[3, 1], [u, v, 0]⟩ := by
  refine ⟨?_, ?_, ?_, ?_⟩ <;> rcases edges <;>
    simp [upConvFilt, evenFilterStep, reshapeIf1D, Mat.shape0, Mat.shape1]

/-- C3 (code bug): the guard `edges != "reflect1" or edges != "extend" or
edges != "repeat"` at `convolutions.py` line 126 is an `or`/`and` slip — no
string can equal all three alternatives, so the condition is true for every
mode — hence the even-filter padding is applied for the supposedly exempted
modes too: with mode `reflect1`, `extend` or `repeat` a `1×2` filter is
padded to `1×3` instead of being passed through unpadded. -/
theorem upConv_pads_even_filter_for_exempted_modes :
    upConvFilt Mode.reflect1 ⟨[1, 2], [1, 2]⟩ = Except.ok ⟨[1, 3], [1, 2, 0]⟩ ∧
      upConvFilt Mode.extend ⟨[1, 2], [1, 2]⟩ = Except.ok ⟨[1, 3], [1, 2, 0]⟩ ∧
      upConvFilt Mode.repeatEdge ⟨[1, 2], [1, 2]⟩ =
        Except.ok ⟨[1, 3], [1, 2, 0]⟩ :=
  ⟨rfl, rfl, rfl⟩

/-- C4 (code bug): `upConv`'s docstring promises that the convolution result
"will be destructively added into" a supplied result matrix and that in that
case "the result matrix will not be returned", but the code copies the
supplied buffer (`result = np.array(result.copy())`, line 146) and hands the
copy's pointer to the kernel: the caller's array is left untouched, the
accumulation happens in the separate copy, and that copy is returned.
Concretely: buffer 2 is supplied as `result` holding `[[10]]`; the kernel
writes `[99]`; after the call buffer 2 still holds `[[10]]` and the caller
receives the fresh buffer 5. -/
theorem upConv_supplied_buffer_not_mutated :
    ((upConvEffects
          (fun i => if i = 2 then ⟨[1, 1], [10]⟩ else ⟨[1, 1], [1]⟩)
          3 0 1 (some 2) Mode.zero 1 1 none (fun _ _ _ => [99])).1 2
        = ⟨[1, 1], [10]⟩) ∧
      (upConvEffects
          (fun i => if i = 2 then ⟨[1, 1], [10]⟩ else ⟨[1, 1], [1]⟩)
          3 0 1 (some 2) Mode.zero 1 1 none (fun _ _ _ => [99])).2
        = some (5, ⟨[1, 1], [99]⟩) :=
  ⟨rfl, rfl⟩

/-- C5: for every image and filter where the filter is larger than the image
in some dimension (`Fh > H` or `Fw > W`), the correlation kernel reports a
`ShapeMismatch` error before any computation, for every boundary mode and
window. -/
theorem corrDn_shape_mismatch (mode : Mode) (H W Fh Fw : ℕ)
    (x f : ℕ → ℕ → ℚ) (startY startX stepY stepX : ℕ)
    (h : Fh > H ∨ Fw > W) :
    corrDnChecked mode H W Fh Fw x f startY startX stepY stepX =
      Except.error KernelError.shapeMismatch := by
  unfold corrDnChecked
  rw [if_pos h]

theorem corrDn_shape_mismatch_witness :
    ((5 : ℕ) > 3 ∨ (5 : ℕ) > 3) ∧
      corrDnChecked Mode.reflect1 3 3 5 5 (fun _ _ => 0) (fun _ _ => 0) 0 0 1 1 =
        Except.error KernelError.shapeMismatch :=
  ⟨by decide,
   corrDn_shape_mismatch Mode.reflect1 3 3 5 5 (fun _ _ => 0) (fun _ _ => 0)
     0 0 1 1 (by decide)⟩

/-- C6 (code bug): neither `corrDn` nor `upConv` contains any orientation
check: with an image of shape `1×36` and a filter of shape `5×1` (both 1D but
along different axes) every pre-kernel staging step succeeds and the call
proceeds into the C kernel — the docstrings themselves warn this "may
encounter a segfault" — instead of being rejected with a `ShapeMismatch`
error as the claim requires. -/
theorem mismatched_1d_orientation_not_rejected :
    corrDnStage ⟨[1, 36], List.replicate 36 1⟩ ⟨[5, 1], [1, 2, 3, 4, 5]⟩
        = Except.ok (⟨[1, 36], List.replicate 36 1⟩, ⟨[5, 1], [1, 2, 3, 4, 5]⟩) ∧
      upConvFilt Mode.reflect1 ⟨[5, 1], [1, 2, 3, 4, 5]⟩
        = Except.ok ⟨[5, 1], [1, 2, 3, 4, 5]⟩ :=
  ⟨rfl, rfl⟩

/-- C7: for every call to `pointOp` with a table (a flat vector, a column
vector or a row vector) containing fewer than 2 samples, or with increment
equal to zero, the kernel-side validation reports `InvalidTable` to the
caller. -/
theorem pointOp_invalid_table (lut : Mat) (increment : ℚ)
    (hshape : lut.dims = [lut.data.length] ∨ lut.dims = [lut.data.length, 1] ∨
      lut.dims = [1, lut.data.length])
    (hbad : lut.data.length < 2 ∨ increment = 0) :
    pointOpChecked lut increment = Except.error KernelError.invalidTable := by
  have hcond : reportedLutLen lut < 2 ∨ increment = 0 := by
    rcases hbad with h | h
    · left
      rcases hshape with hs | hs | hs <;> simp [reportedLutLen, hs] <;> omega
    · right
      exact h
  unfold pointOpChecked
  rw [if_pos hcond]

theorem pointOp_invalid_table_witness :
    (([1] : List ℕ) = [[(5 : ℚ)].length] ∨
        ([1] : List ℕ) = [[(5 : ℚ)].length, 1] ∨
        ([1] : List ℕ) = [1, [(5 : ℚ)].length]) ∧
      ([(5 : ℚ)].length < 2 ∨ (1 : ℚ) = 0) ∧
      pointOpChecked ⟨[1], [5]⟩ 1 = Except.error KernelError.invalidTable :=
  ⟨Or.inl rfl, Or.inl (by decide),
   pointOp_invalid_table ⟨[1], [5]⟩ 1 (Or.inl rfl) (Or.inl (by decide))⟩

/-- C8 (code bug): the output sizing rules hold on the generic path, but the
`circular` fast path with a caller-supplied result buffer returns the
transpose: with `edges='circular'`, a supplied `2×3` result buffer and no
`stop`, the code computes `stop = (2, 3)` from the buffer's shape yet returns
an array of shape `(3, 2)` (`result = result.T`, line 157), contradicting the
claim that the returned grid's shape equals `(stop[0], stop[1])` in all
cases including the circular fast path. -/
theorem upConv_circular_supplied_buffer_shape :
    upConvStopOf ⟨[2, 3], List.replicate 6 1⟩
        (some ⟨[2, 3], List.replicate 6 0⟩) 1 1 none = (2, 3) ∧
      ((upConvEffects
            (fun i => if i = 0 then ⟨[2, 3], List.replicate 6 1⟩
              else if i = 2 then ⟨[2, 3], List.replicate 6 0⟩
              else ⟨[1, 1], [1]⟩)
            3 0 1 (some 2) Mode.circular 1 1 none
            (fun _ _ r => r.data)).2.map fun p => p.2.dims)
        = some [3, 2] :=
  ⟨rfl, rfl⟩

/-- C9: both `corrDn` and `upConv` copy every caller-supplied array — image,
filter, and any supplied result buffer — before the kernel call, and the
kernel writes only through the copy's pointer, so after either call every
argument buffer holds its original value and the returned grid is a buffer
distinct from every argument; this holds for every mode, window and kernel
behaviour. -/
theorem corrDn_upConv_arguments_unmodified
    (σ : Store) (n imgId filtId rId : ℕ) (edges : Mode)
    (t0 t1 sy sx uy ux : ℕ) (stopC stopU : Option (ℕ × ℕ))
    (kC kU : Mat → Mat → Mat → List ℚ)
    (h1 : imgId < n) (h2 : filtId < n) (h3 : rId < n) :
    ((corrDnEffects σ n imgId filtId (some rId) t0 t1 sy sx stopC kC).1 imgId
        = σ imgId ∧
      (corrDnEffects σ n imgId filtId (some rId) t0 t1 sy sx stopC kC).1 filtId
        = σ filtId ∧
      (corrDnEffects σ n imgId filtId (some rId) t0 t1 sy sx stopC kC).1 rId
        = σ rId ∧
      ((corrDnEffects σ n imgId filtId (some rId) t0 t1 sy sx stopC kC).2.1
          ≠ imgId ∧
        (corrDnEffects σ n imgId filtId (some rId) t0 t1 sy sx stopC kC).2.1
          ≠ filtId ∧
        (corrDnEffects σ n imgId filtId (some rId) t0 t1 sy sx stopC kC).2.1
          ≠ rId)) ∧
    ((upConvEffects σ n imgId filtId (some rId) edges uy ux stopU kU).1 imgId
        = σ imgId ∧
      (upConvEffects σ n imgId filtId (some rId) edges uy ux stopU kU).1 filtId
        = σ filtId ∧
      (upConvEffects σ n imgId filtId (some rId) edges uy ux stopU kU).1 rId
        = σ rId ∧
      (upConvEffects σ n imgId filtId (some rId) edges uy ux stopU kU).2.elim
        True (fun p => p.1 ≠ imgId ∧ p.1 ≠ filtId ∧ p.1 ≠ rId)) := by
  constructor
  · refine ⟨?_, ?_, ?_,
      by show n + 2 ≠ imgId; omega, by show n + 2 ≠ filtId; omega,
      by show n + 2 ≠ rId; omega⟩ <;>
      · show (setBuf (setBuf (setBuf σ n _) (n + 1) _) (n + 2) _) _ = _
        rw [setBuf_ne _ _ _ _ (by omega), setBuf_ne _ _ _ _ (by omega),
          setBuf_ne _ _ _ _ (by omega)]
  · rcases hf : upConvFilt edges (σ filtId) with e | fm
    · refine ⟨?_, ?_, ?_, ?_⟩ <;> simp only [upConvEffects, hf]
      · rw [setBuf_ne _ _ _ _ (by omega), setBuf_ne _ _ _ _ (by omega)]
      · rw [setBuf_ne _ _ _ _ (by omega), setBuf_ne _ _ _ _ (by omega)]
      · rw [setBuf_ne _ _ _ _ (by omega), setBuf_ne _ _ _ _ (by omega)]
      · exact trivial
    · refine ⟨?_, ?_, ?_, ?_⟩ <;> simp only [upConvEffects, hf]
      · rw [setBuf_ne _ _ _ _ (by omega), setBuf_ne _ _ _ _ (by omega),
          setBuf_ne _ _ _ _ (by omega)]
      · rw [setBuf_ne _ _ _ _ (by omega), setBuf_ne _ _ _ _ (by omega),
          setBuf_ne _ _ _ _ (by omega)]
      · rw [setBuf_ne _ _ _ _ (by omega), setBuf_ne _ _ _ _ (by omega),
          setBuf_ne _ _ _ _ (by omega)]
      · exact ⟨by omega, by omega, by omega⟩

theorem corrDn_upConv_arguments_unmodified_witness :
    ((corrDnEffects (fun _ => ⟨[1, 1], [7]⟩) 3 0 1 (some 2) 0 0 1 1 none
          (fun _ _ _ => [9])).1 0 = ⟨[1, 1], [7]⟩ ∧
      (corrDnEffects (fun _ => ⟨[1, 1], [7]⟩) 3 0 1 (some 2) 0 0 1 1 none
          (fun _ _ _ => [9])).1 1 = ⟨[1, 1], [7]⟩ ∧
      (corrDnEffects (fun _ => ⟨[1, 1], [7]⟩) 3 0 1 (some 2) 0 0 1 1 none
          (fun _ _ _ => [9])).1 2 = ⟨[1, 1], [7]⟩ ∧
      ((corrDnEffects (fun _ => ⟨[1, 1], [7]⟩) 3 0 1 (some 2) 0 0 1 1 none
            (fun _ _ _ => [9])).2.1 ≠ 0 ∧
        (corrDnEffects (fun _ => ⟨[1, 1], [7]⟩) 3 0 1 (some 2) 0 0 1 1 none
            (fun _ _ _ => [9])).2.1 ≠ 1 ∧
        (corrDnEffects (fun _ => ⟨[1, 1], [7]⟩) 3 0 1 (some 2) 0 0 1 1 none
            (fun _ _ _ => [9])).2.1 ≠ 2)) ∧
    ((upConvEffects (fun _ => ⟨[1, 1], [7]⟩) 3 0 1 (some 2) Mode.zero 1 1 none
          (fun _ _ _ => [9])).1 0 = ⟨[1, 1], [7]⟩ ∧
      (upConvEffects (fun _ => ⟨[1, 1], [7]⟩) 3 0 1 (some 2) Mode.zero 1 1 none
          (fun _ _ _ => [9])).1 1 = ⟨[1, 1], [7]⟩ ∧
      (upConvEffects (fun _ => ⟨[1, 1], [7]⟩) 3 0 1 (some 2) Mode.zero 1 1 none
          (fun _ _ _ => [9])).1 2 = ⟨[1, 1], [7]⟩ ∧
      (upConvEffects (fun _ => ⟨[1, 1], [7]⟩) 3 0 1 (some 2) Mode.zero 1 1 none
          (fun _ _ _ => [9])).2.elim True
        (fun p => p.1 ≠ 0 ∧ p.1 ≠ 1 ∧ p.1 ≠ 2)) :=
  corrDn_upConv_arguments_unmodified (fun _ => ⟨[1, 1], [7]⟩) 3 0 1 2 Mode.zero
    0 0 1 1 1 1 none none (fun _ _ _ => [9]) (fun _ _ _ => [9])
    (by decide) (by decide) (by decide)

/-- C10: `pointOp` reports the table length to the kernel as `lut.shape[0]`,
so a flat length-`k` table or a `k×1` column exposes all `k` samples while a
`1×k` row reports length 1 and exposes only its first sample to the lookup;
and the returned grid is a freshly allocated array (distinct from both
argument buffers, which are untouched) of exactly the input image's 2D
shape. -/
theorem pointOp_reported_length_and_fresh_result
    (k : ℕ) (d : List ℚ) (σ : Store) (n imgId lutId : ℕ)
    (kern : List ℚ → ℕ → List ℚ → List ℚ)
    (h1 : imgId < n) (h2 : lutId < n) :
    reportedLutLen ⟨[k], d⟩ = k ∧
      reportedLutLen ⟨[k, 1], d⟩ = k ∧
      reportedLutLen ⟨[1, k], d⟩ = 1 ∧
      visibleSamples ⟨[1, k], d⟩ = d.take 1 ∧
      (pointOpEffects σ n imgId lutId kern).1 imgId = σ imgId ∧
      (pointOpEffects σ n imgId lutId kern).1 lutId = σ lutId ∧
      (pointOpEffects σ n imgId lutId kern).2.1 ≠ imgId ∧
      (pointOpEffects σ n imgId lutId kern).2.1 ≠ lutId ∧
      (pointOpEffects σ n imgId lutId kern).2.2.dims
        = [(σ imgId).shape0, (σ imgId).shape1] := by
  refine ⟨rfl, rfl, rfl, rfl, ?_, ?_,
    by show n + 1 ≠ imgId; omega, by show n + 1 ≠ lutId; omega, rfl⟩ <;>
    · show (setBuf (setBuf σ n _) (n + 1) _) _ = _
      rw [setBuf_ne _ _ _ _ (by omega), setBuf_ne _ _ _ _ (by omega)]

theorem pointOp_reported_length_and_fresh_result_witness :
    reportedLutLen ⟨[4], [1, 2, 3, 4]⟩ = 4 ∧
      reportedLutLen ⟨[4, 1], [1, 2, 3, 4]⟩ = 4 ∧
      reportedLutLen ⟨[1, 4], [1, 2, 3, 4]⟩ = 1 ∧
      visibleSamples ⟨[1, 4], [1, 2, 3, 4]⟩ = ([1, 2, 3, 4] : List ℚ).take 1 ∧
      (pointOpEffects (fun _ => ⟨[2, 3], List.replicate 6 1⟩) 2 0 1
          (fun _ _ _ => [9])).1 0 = ⟨[2, 3], List.replicate 6 1⟩ ∧
      (pointOpEffects (fun _ => ⟨[2, 3], List.replicate 6 1⟩) 2 0 1
          (fun _ _ _ => [9])).1 1 = ⟨[2, 3], List.replicate 6 1⟩ ∧
      (pointOpEffects (fun _ => ⟨[2, 3], List.replicate 6 1⟩) 2 0 1
          (fun _ _ _ => [9])).2.1 ≠ 0 ∧
      (pointOpEffects (fun _ => ⟨[2, 3], List.replicate 6 1⟩) 2 0 1
          (fun _ _ _ => [9])).2.1 ≠ 1 ∧
      (pointOpEffects (fun _ => ⟨[2, 3], List.replicate 6 1⟩) 2 0 1
          (fun _ _ _ => [9])).2.2.dims = [2, 3] :=
  pointOp_reported_length_and_fresh_result 4 [1, 2, 3, 4]
    (fun _ => ⟨[2, 3], List.replicate 6 1⟩) 2 0 1 (fun _ _ _ => [9])
    (by decide) (by decide)

end Pyrtools
